import Mathlib

/-!
Verification of the CDP session-management core of this repository.

The embedding mirrors `src/cdp/session.ts` (class `CDPSessionWrapper`) and
`src/browser/CDPManager.ts` (class `CDPSession` / `initialize`).  JavaScript is
single threaded, so every handler body is one atomic state transformation;
`Map` objects become insertion-ordered association lists with JS `Map.set`
semantics (update in place, else append), `Set` objects become insertion-ordered
duplicate-free lists.  Opaque JS values (`any` payloads, results, configs) are a
type parameter `α`.  Promise continuations (`resolve`/`reject`) are represented
by reporting `(commandId, Outcome)` pairs instead of invoking stored closures.
Handlers are identified by `Nat`; whether a handler throws on a given argument
is an environment `beh : Nat → Option α → Bool` (the argument is `none` for the
zero-argument `closed` notification).  `Date.now()` readings and transport
replies are explicit parameters, since they come from outside the core.
-/

namespace PWMCP

/-- `src/cdp/types.ts` `CDPError`: `{code, message, data?}`; `data` is opaque. -/
structure CDPError (α : Type) where
  code : Int
  message : String
  data : Option α
deriving DecidableEq, Repr

/-- `src/cdp/types.ts` `CDPResponse`: `{id, result?, error?}`. -/
structure CDPResponse (α : Type) where
  id : Nat
  result : Option α
  error : Option (CDPError α)
deriving DecidableEq, Repr

/-- `src/cdp/types.ts` `CDPEvent`: `{method, params, sessionId?}`. -/
structure CDPEvent (α : Type) where
  method : String
  params : α
  sessionId : Option String
deriving DecidableEq, Repr

/-- One entry of `pendingCommands` (session.ts lines 59-64).  The
`resolve`/`reject` closures are represented externally by `Outcome` reports. -/
structure PendingCommand where
  method : String
  timestamp : Nat
deriving DecidableEq, Repr

/-- `DomainState` (session.ts lines 34-39). -/
structure DomainState (α : Type) where
  enabled : Bool
  enableTime : Option Nat
  disableTime : Option Nat
  config : Option α
deriving DecidableEq, Repr

/-- How a command future settles: resolved with a result, rejected with the
remote error payload (`pending.reject(response.error)`), or rejected with a
thrown `Error(message)`. -/
inductive Outcome (α : Type) where
  | resolved (result : Option α)
  | protocolError (e : CDPError α)
  | exception (message : String)
deriving DecidableEq, Repr

/-- Insertion-ordered association list standing for a JS `Map`. -/
def mapGet {κ ν : Type} [DecidableEq κ] : List (κ × ν) → κ → Option ν
  | [], _ => none
  | (k', v') :: rest, k => if k' = k then some v' else mapGet rest k

/-- JS `Map.set`: update in place when the key exists, else append. -/
def mapSet {κ ν : Type} [DecidableEq κ] : List (κ × ν) → κ → ν → List (κ × ν)
  | [], k, v => [(k, v)]
  | (k', v') :: rest, k, v =>
    if k' = k then (k, v) :: rest else (k', v') :: mapSet rest k v

/-- JS `Map.delete` (keys are unique in every map the code builds). -/
def mapDelete {κ ν : Type} [DecidableEq κ] : List (κ × ν) → κ → List (κ × ν)
  | [], _ => []
  | (k', v') :: rest, k =>
    if k' = k then mapDelete rest k else (k', v') :: mapDelete rest k

/-- JS `Set.add`: no-op when present, else append (insertion order kept). -/
def setAdd {ν : Type} [DecidableEq ν] (s : List ν) (v : ν) : List ν :=
  if v ∈ s then s else s ++ [v]

/-- The whole mutable state of one `CDPSessionWrapper` (session.ts lines 51-64).
`listeners` is the inherited `EventEmitter` listener table (`this.on` /
`this.emit`), which is distinct from the `eventHandlers` map. -/
structure SessionState (α : Type) where
  sessionId : String
  closed : Bool
  domains : List (String × DomainState α)
  eventBuffer : List (String × List α)
  eventHandlers : List (String × List Nat)
  commandId : Nat
  pendingCommands : List (Nat × PendingCommand)
  listeners : List (String × List Nat)
deriving DecidableEq, Repr

/-- State right after the constructor (session.ts lines 66-71). -/
def SessionState.initial {α : Type} (sid : String) : SessionState α :=
  ⟨sid, false, [], [], [], 0, [], []⟩

/-- Result of one `emit`/replay loop: the `(handler, argument)` invocations that
actually happened, in order, and the handler whose exception escaped (if any).
Node's `EventEmitter.emit` calls listeners synchronously in registration order
and lets a listener's exception propagate, skipping the remaining listeners. -/
structure EmitResult (α : Type) where
  invoked : List (Nat × Option α)
  thrown : Option Nat
deriving DecidableEq, Repr

/-- Run `this.emit(event, arg)` over a listener list. -/
def emitRun {α : Type} (beh : Nat → Option α → Bool) (arg : Option α) :
    List Nat → EmitResult α
  | [] => ⟨[], none⟩
  | h :: rest =>
    if beh h arg then ⟨[(h, arg)], some h⟩
    else
      let r := emitRun beh arg rest
      ⟨(h, arg) :: r.invoked, r.thrown⟩

/-- The replay loop of `subscribe` (session.ts lines 188-193): the new handler
is called once per buffered payload; an exception stops the loop and escapes. -/
def replayRun {α : Type} (beh : Nat → Option α → Bool) (h : Nat) :
    List α → EmitResult α
  | [] => ⟨[], none⟩
  | p :: rest =>
    if beh h (some p) then ⟨[(h, some p)], some h⟩
    else
      let r := replayRun beh h rest
      ⟨(h, some p) :: r.invoked, r.thrown⟩

/-- Result of `handleResponse` (the `connection.on('response')` callback):
the new state and, when a pending entry matched, the settled `(id, outcome)`. -/
structure ResponseResult (α : Type) where
  state : SessionState α
  settled : Option (Nat × Outcome α)
deriving DecidableEq, Repr

/-- The outcome a response produces for its future: `reject(response.error)`
when `error` is present, else `resolve(response.result)` (lines 89-93). -/
def responseOutcome {α : Type} (r : CDPResponse α) : Outcome α :=
  match r.error with
  | some e => Outcome.protocolError e
  | none => Outcome.resolved r.result

/-- session.ts lines 85-95: look up the pending entry by `response.id`; when
present delete exactly it and settle its future; otherwise do nothing. -/
def handleResponse {α : Type} (s : SessionState α) (r : CDPResponse α) :
    ResponseResult α :=
  match mapGet s.pendingCommands r.id with
  | none => ⟨s, none⟩
  | some _ =>
    ⟨{ s with pendingCommands := mapDelete s.pendingCommands r.id },
     some (r.id, responseOutcome r)⟩

/-- State and settled futures after a sequence of responses arrives. -/
structure ResponsesRun (α : Type) where
  state : SessionState α
  settled : List (Nat × Outcome α)
deriving DecidableEq, Repr

/-- Process a list of incoming responses in arrival order. -/
def processResponses {α : Type} (s : SessionState α) :
    List (CDPResponse α) → ResponsesRun α
  | [] => ⟨s, []⟩
  | r :: rest =>
    let h := handleResponse s r
    let h2 := processResponses h.state rest
    ⟨h2.state, h.settled.toList ++ h2.settled⟩

/-- session.ts lines 224-229: `buffer.push(params)` then
`if (buffer.length > 100) buffer.shift()`. -/
def bufferAppend {α : Type} (buffer : List α) (p : α) : List α :=
  let b := buffer ++ [p]
  if b.length > 100 then b.tail else b

/-- Result of a handler-invoking session step (`handleEvent`, `subscribe`). -/
structure StepResult (α : Type) where
  state : SessionState α
  invoked : List (Nat × Option α)
  thrown : Option Nat
deriving DecidableEq, Repr

/-- session.ts lines 216-233 `handleEvent`: ensure a buffer for the event name,
append (evicting past 100), then `this.emit(method, params)` to the
`EventEmitter` listeners.  Buffering completes before the emit, so the buffer
update stands even when a listener throws. -/
def handleEvent {α : Type} (beh : Nat → Option α → Bool) (s : SessionState α)
    (e : CDPEvent α) : StepResult α :=
  let buf := (mapGet s.eventBuffer e.method).getD []
  let s1 := { s with eventBuffer := mapSet s.eventBuffer e.method (bufferAppend buf e.params) }
  let er := emitRun beh (some e.params) ((mapGet s1.listeners e.method).getD [])
  ⟨s1, er.invoked, er.thrown⟩

/-- session.ts lines 181-197 `subscribe`: add the handler to the
`eventHandlers` set, replay the buffered payloads to it (oldest first), then
`this.on(event, handler)`.  A replay exception escapes before `this.on` runs. -/
def subscribe {α : Type} (beh : Nat → Option α → Bool) (s : SessionState α)
    (event : String) (h : Nat) : StepResult α :=
  let hs := (mapGet s.eventHandlers event).getD []
  let s1 := { s with eventHandlers := mapSet s.eventHandlers event (setAdd hs h) }
  let buffered := (mapGet s1.eventBuffer event).getD []
  let r := replayRun beh h buffered
  match r.thrown with
  | some t => ⟨s1, r.invoked, some t⟩
  | none =>
    let ls := (mapGet s1.listeners event).getD []
    ⟨{ s1 with listeners := mapSet s1.listeners event (ls ++ [h]) }, r.invoked, none⟩

/-- State and accumulated handler invocations after a stream of events. -/
structure RunResult (α : Type) where
  state : SessionState α
  invoked : List (Nat × Option α)
deriving DecidableEq, Repr

/-- Deliver a list of incoming events in arrival order. -/
def processEvents {α : Type} (beh : Nat → Option α → Bool) (s : SessionState α) :
    List (CDPEvent α) → RunResult α
  | [] => ⟨s, []⟩
  | e :: rest =>
    let r := handleEvent beh s e
    let r2 := processEvents beh r.state rest
    ⟨r2.state, r.invoked ++ r2.invoked⟩

/-- The payloads, in arrival order, of the events in `es` named `m`. -/
def eventPayloads {α : Type} (es : List (CDPEvent α)) (m : String) : List α :=
  (es.filter (fun e => e.method == m)).map (fun e => e.params)

/-- Result of `handleConnectionClosed` (session.ts lines 238-254). -/
structure CloseResult (α : Type) where
  state : SessionState α
  rejections : List (Nat × Outcome α)
  invoked : List (Nat × Option α)
  thrown : Option Nat
deriving DecidableEq, Repr

/-- session.ts lines 238-254: mark closed, reject every pending command with
`Error('Connection closed')`, clear the pending/domains/buffer/handler maps,
`emit('closed')`, then `removeAllListeners()`.  If a `closed` listener throws,
`removeAllListeners` is not reached and the exception escapes. -/
def handleConnectionClosed {α : Type} (beh : Nat → Option α → Bool)
    (s : SessionState α) : CloseResult α :=
  let rejections := s.pendingCommands.map (fun kv => (kv.1, Outcome.exception "Connection closed"))
  let s1 : SessionState α :=
    { s with closed := true, pendingCommands := [], domains := [],
             eventBuffer := [], eventHandlers := [] }
  let er := emitRun beh none ((mapGet s1.listeners "closed").getD [])
  match er.thrown with
  | some h => ⟨s1, rejections, er.invoked, some h⟩
  | none => ⟨{ s1 with listeners := [] }, rejections, er.invoked, none⟩

/-- How the future returned by `send` stands once the synchronous part and the
transport handoff are done (session.ts lines 106-129). -/
inductive SendOutcome (α : Type) where
  | threwClosed (message : String)
  | pending (id : Nat)
  | rejectedTransport (id : Nat) (message : String)
deriving DecidableEq, Repr

/-- Result of a `send` call. -/
structure SendResult (α : Type) where
  state : SessionState α
  outcome : SendOutcome α
deriving DecidableEq, Repr

/-- session.ts lines 106-129 `send`: throw immediately when closed (no pending
entry); otherwise allocate `++commandId`, store a pending entry, and hand the
command to the transport.  When `connection.send` rejects, the `.catch(reject)`
rejects the future but nothing removes the pending entry. -/
def send {α : Type} (s : SessionState α) (method : String) (now : Nat)
    (transportFailure : Option String) : SendResult α :=
  if s.closed then
    ⟨s, SendOutcome.threwClosed ("CDP session " ++ s.sessionId ++ " is closed")⟩
  else
    let id := s.commandId + 1
    let s1 := { s with commandId := id,
                       pendingCommands := mapSet s.pendingCommands id ⟨method, now⟩ }
    match transportFailure with
    | none => ⟨s1, SendOutcome.pending id⟩
    | some msg => ⟨s1, SendOutcome.rejectedTransport id msg⟩

/-- session.ts lines 174-176 `isDomainEnabled`: `domains.get(domain)?.enabled || false`;
also the guard of `enable` (line 135). -/
def isDomainEnabled {α : Type} (s : SessionState α) (domain : String) : Bool :=
  match mapGet s.domains domain with
  | some st => st.enabled
  | none => false

/-- The result the transport eventually gives a command: `.ok result` or a
remote `CDPError`. -/
def replyResult {α : Type} : Except (CDPError α) (Option α) → Option α
  | Except.ok v => v
  | Except.error _ => none

/-- The `error` field of the response carrying a given reply. -/
def replyError {α : Type} : Except (CDPError α) (Option α) → Option (CDPError α)
  | Except.ok _ => none
  | Except.error e => some e

/-- Final state, issued commands, and propagated error of a domain call. -/
structure CallResult (α : Type) where
  state : SessionState α
  issued : List String
  raised : Option (CDPError α)
deriving DecidableEq, Repr

/-- session.ts lines 134-150 `enable`, run to completion on an open session:
no-op when already enabled; otherwise `send(domain + ".enable", config)`, whose
response is routed through `handleResponse`; on success record
`{enabled: true, enableTime, config}` (a fresh object, so `disableTime` is
absent); on failure log and rethrow, leaving `domains` untouched.
(A transport-level rejection of the send behaves like the error branch:
caught, logged, rethrown, `domains` untouched.) -/
def enableCall {α : Type} (s : SessionState α) (domain : String) (config : Option α)
    (sendNow finishNow : Nat) (reply : Except (CDPError α) (Option α)) : CallResult α :=
  if isDomainEnabled s domain then ⟨s, [], none⟩
  else
    let method := domain ++ ".enable"
    let r := send s method sendNow none
    let h := handleResponse r.state ⟨r.state.commandId, replyResult reply, replyError reply⟩
    match reply with
    | Except.ok _ =>
      ⟨{ h.state with domains := mapSet h.state.domains domain ⟨true, some finishNow, none, config⟩ },
       [method], none⟩
    | Except.error e => ⟨h.state, [method], some e⟩

/-- The synchronous prefix of `enable` (session.ts lines 134-140): the
already-enabled check and, when it fails, the synchronous body of `send`
(allocate the id, store the pending entry, hand the command to the transport).
The caller then suspends at `await`; this is the state a second concurrent
`enable` observes. -/
def enableStart {α : Type} (s : SessionState α) (domain : String) (now : Nat) :
    SessionState α × List String :=
  if isDomainEnabled s domain then (s, [])
  else ((send s (domain ++ ".enable") now none).state, [domain ++ ".enable"])

/-- session.ts lines 155-169 `disable`, run to completion on an open session:
no-op unless currently enabled; otherwise send `domain + ".disable"`; on
success mutate the existing state object (`enabled := false`, `disableTime`);
on failure log and rethrow. -/
def disableCall {α : Type} (s : SessionState α) (domain : String)
    (sendNow finishNow : Nat) (reply : Except (CDPError α) (Option α)) : CallResult α :=
  match mapGet s.domains domain with
  | none => ⟨s, [], none⟩
  | some st =>
    if st.enabled then
      let method := domain ++ ".disable"
      let r := send s method sendNow none
      let h := handleResponse r.state ⟨r.state.commandId, replyResult reply, replyError reply⟩
      match reply with
      | Except.ok _ =>
        let st2 := { st with enabled := false, disableTime := some finishNow }
        ⟨{ h.state with domains := mapSet h.state.domains domain st2 }, [method], none⟩
      | Except.error e => ⟨h.state, [method], some e⟩
    else ⟨s, [], none⟩

/-- Result of a `close()` call: final state, issued disable commands, and the
handler whose exception escaped to the caller (if any). -/
structure CloseCallResult (α : Type) where
  state : SessionState α
  issued : List String
  thrown : Option Nat
deriving DecidableEq, Repr

/-- session.ts lines 290-310 `close`: return immediately when already closed;
otherwise snapshot the enabled domains, run a best-effort `disable` for each
(`.catch(() => {})` swallows each failure), `await connection.close()` inside
`try`/`catch` (its failure is logged and swallowed), then run
`handleConnectionClosed` in the `finally` block.  `disableReply` gives each
disable command its transport reply; `_connCloseFailure` is the (caught) failure
of `connection.close()` — the result does not depend on either.
`closeDisableStep` is one step of the best-effort disable fold. -/
def closeDisableStep {α : Type} (disableReply : String → Except (CDPError α) (Option α))
    (now : Nat) (acc : SessionState α × List String) (d : String) :
    SessionState α × List String :=
  let r := disableCall acc.1 d now now (disableReply d)
  (r.state, acc.2 ++ r.issued)

def closeCall {α : Type} (beh : Nat → Option α → Bool) (s : SessionState α)
    (disableReply : String → Except (CDPError α) (Option α)) (now : Nat)
    (_connCloseFailure : Option String) : CloseCallResult α :=
  if s.closed then ⟨s, [], none⟩
  else
    let enabledDoms := (s.domains.filter (fun kv => kv.2.enabled)).map (fun kv => kv.1)
    let after := enabledDoms.foldl (closeDisableStep disableReply now) (s, [])
    let hc := handleConnectionClosed beh after.1
    ⟨hc.state, after.2, hc.thrown⟩

/-- session.ts lines 259-285 `getMetrics`. -/
structure Metrics where
  sessionId : String
  enabledDomains : List String
  bufferedEvents : Nat
  pendingCommands : Nat
  uptime : Nat
deriving DecidableEq, Repr

/-- `getMetrics`: enabled-domain names, total buffered payloads,
`pendingCommands.size`, and `Date.now() - Math.min(...timestamps, Date.now())`. -/
def getMetrics {α : Type} (s : SessionState α) (now : Nat) : Metrics :=
  ⟨s.sessionId,
   (s.domains.filter (fun kv => kv.2.enabled)).map (fun kv => kv.1),
   ((s.eventBuffer.map (fun kv => kv.2.length)).foldr (· + ·) 0),
   s.pendingCommands.length,
   now - ((s.pendingCommands.map (fun kv => kv.2.timestamp)).foldr min now)⟩

/-- CDPManager.ts line 25: the fixed, dependency-ordered bring-up list. -/
def REQUIRED_DOMAINS : List String :=
  ["Runtime", "Network", "Page", "DOM", "CSS", "Console", "Performance", "Security", "Fetch"]

/-- CDPManager.ts lines 326: `domain !== 'Runtime' && domain !== 'Network' &&
domain !== 'Page'` negated — the critical domains. -/
def isCriticalDomain (domain : String) : Bool :=
  domain == "Runtime" || domain == "Network" || domain == "Page"

/-- Errors of the manager-side `CDPSession.send` (CDPManager.ts lines 454-468):
a synchronous throw on a closed session, or the client failure wrapped into
`CDPError{code: -32000, message}`. -/
inductive MgrError where
  | sessionClosed
  | cdpError (code : Int) (message : String)
deriving DecidableEq, Repr

/-- CDPManager.ts lines 454-468 `send`: throw when closed, else forward to the
Playwright client; wrap a client failure into a `-32000` CDP error.
`clientFailure method` is the client's failure message, when it fails. -/
def mgrSend (closed : Bool) (clientFailure : String → Option String)
    (method : String) : Except MgrError Unit :=
  if closed then Except.error MgrError.sessionClosed
  else
    match clientFailure method with
    | some msg => Except.error (MgrError.cdpError (-32000) msg)
    | none => Except.ok ()

/-- Outcome of one `enableDomain` attempt (CDPManager.ts lines 321-334). -/
structure EnableDomainResult where
  warned : Bool
  raised : Option MgrError
deriving DecidableEq, Repr

/-- CDPManager.ts lines 321-334 `enableDomain`: send `domain + ".enable"`;
on failure warn and continue for a non-critical domain, rethrow for
Runtime/Network/Page. -/
def enableDomain (closed : Bool) (clientFailure : String → Option String)
    (domain : String) : EnableDomainResult :=
  match mgrSend closed clientFailure (domain ++ ".enable") with
  | Except.ok _ => ⟨false, none⟩
  | Except.error e =>
    if !(isCriticalDomain domain) then ⟨true, none⟩ else ⟨false, some e⟩

/-- Trace of the bring-up loop: enable commands issued in order, auxiliary
domains whose failure was downgraded to a warning, and the propagated error. -/
structure InitResult where
  attempted : List String
  warnings : List String
  raised : Option MgrError
deriving DecidableEq, Repr

/-- The `for (const domain of REQUIRED_DOMAINS)` loop of `initialize`
(CDPManager.ts lines 299-301): stop at the first rethrown failure. -/
def initLoop (closed : Bool) (clientFailure : String → Option String) :
    List String → InitResult
  | [] => ⟨[], [], none⟩
  | d :: rest =>
    let r := enableDomain closed clientFailure d
    match r.raised with
    | some e => ⟨[d ++ ".enable"], [], some e⟩
    | none =>
      let r2 := initLoop closed clientFailure rest
      ⟨(d ++ ".enable") :: r2.attempted,
       (if r.warned then [d] else []) ++ r2.warnings, r2.raised⟩

/-- A bring-up run: the session's `closed` flag afterwards and the trace. -/
structure MgrInitRun where
  closedAfter : Bool
  result : InitResult
deriving DecidableEq, Repr

/-- CDPManager.ts lines 296-316 `initialize`: the domain loop, then
`Network.setCacheDisabled` and `Fetch.enable`; any failure is logged and
rethrown.  Neither `initialize` nor `attachToPage`'s catch block (lines
135-138, which logs and rethrows) ever calls `close()` or sets `closed`, so
the `closed` flag is unchanged by a failed bring-up. -/
def initializeRun (closed : Bool) (clientFailure : String → Option String) :
    MgrInitRun :=
  let loop := initLoop closed clientFailure REQUIRED_DOMAINS
  match loop.raised with
  | some e => ⟨closed, ⟨loop.attempted, loop.warnings, some e⟩⟩
  | none =>
    match mgrSend closed clientFailure "Network.setCacheDisabled" with
    | Except.error e => ⟨closed, ⟨loop.attempted, loop.warnings, some e⟩⟩
    | Except.ok _ =>
      match mgrSend closed clientFailure "Fetch.enable" with
      | Except.error e => ⟨closed, ⟨loop.attempted, loop.warnings, some e⟩⟩
      | Except.ok _ => ⟨closed, ⟨loop.attempted, loop.warnings, none⟩⟩

/-- A handler environment in which no handler ever throws. -/
def exBeh : Nat → Option Nat → Bool := fun _ _ => false

/-- Session with three outstanding commands (ids 1..3). -/
def c1state : SessionState Nat :=
  ⟨"s1", false, [], [], [], 3, [(1, ⟨"m1", 10⟩), (2, ⟨"m2", 11⟩), (3, ⟨"m3", 12⟩)], []⟩

/-- The spec scenario: responses arriving in the order 2, 3, 1. -/
def c1responses : List (CDPResponse Nat) :=
  [⟨2, some 20, none⟩, ⟨3, some 30, none⟩, ⟨1, some 10, none⟩]

/-- An error response for command 1. -/
def c1errResponse : CDPResponse Nat := ⟨1, none, some ⟨-32601, "method not found", some 7⟩⟩

/-- A response whose id matches no pending command. -/
def c1unknownResponse : CDPResponse Nat := ⟨9, some 99, none⟩

/-- Session with outstanding commands and some state in every map. -/
def c2state : SessionState Nat :=
  ⟨"s2", false, [("Network", ⟨true, some 1, none, none⟩)], [("E", [4])], [("E", [1])], 2,
   [(1, ⟨"m1", 10⟩), (2, ⟨"m2", 11⟩)], [("E", [1])]⟩

/-- Four incoming events: three named `E`, one named `F`. -/
def c3es : List (CDPEvent Nat) := [⟨"E", 1, none⟩, ⟨"F", 5, none⟩, ⟨"E", 2, none⟩, ⟨"E", 3, none⟩]

/-- A full buffer of 100 payloads. -/
def c3full : List Nat := List.replicate 100 0

/-- A session whose buffer for `E` holds 100 payloads. -/
def c3state : SessionState Nat := ⟨"s3", false, [], [("E", c3full)], [], 0, [], []⟩

/-- Events that occur before the `subscribe` call of the C4 scenario. -/
def c4es0 : List (CDPEvent Nat) := [⟨"E", 1, none⟩, ⟨"F", 5, none⟩, ⟨"E", 2, none⟩, ⟨"E", 3, none⟩]

/-- Live events after the `subscribe` call of the C4 scenario. -/
def c4es1 : List (CDPEvent Nat) := [⟨"E", 9, none⟩, ⟨"F", 6, none⟩]

/-- A fresh open session. -/
def c5state : SessionState Nat := SessionState.initial "s5"

/-- A fresh open session. -/
def c6state : SessionState Nat := SessionState.initial "s6"

/-- Handler 1 throws on every delivery; other handlers never throw. -/
def c7beh : Nat → Option Nat → Bool := fun h _ => h == 1

/-- Session where handler 1 and then handler 2 subscribed to the same event. -/
def c7state : SessionState Nat :=
  (subscribe c7beh
    (subscribe c7beh (SessionState.initial "s7") "Network.requestWillBeSent" 1).state
    "Network.requestWillBeSent" 2).state

/-- Delivery of one `Network.requestWillBeSent` event to `c7state`. -/
def c7run : StepResult Nat := handleEvent c7beh c7state ⟨"Network.requestWillBeSent", 42, none⟩

/-- Client environment in which enabling the Runtime domain fails. -/
def c8fail : String → Option String :=
  fun m => if m == "Runtime.enable" then some "not available" else none

/-- Client environment in which the DOM (auxiliary) domain enable fails. -/
def c8auxFail : String → Option String :=
  fun m => if m == "DOM.enable" then some "not available" else none

/-- Handler 5 throws on every delivery; other handlers never throw. -/
def c9beh : Nat → Option Nat → Bool := fun h _ => h == 5

/-- Open session with a pending command and a throwing `closed` listener. -/
def c9state : SessionState Nat :=
  ⟨"s9", false, [], [], [], 1, [(1, ⟨"m1", 10⟩)], [("closed", [5])]⟩

/-- Open session with one enabled and one disabled domain and a pending command. -/
def c9okState : SessionState Nat :=
  ⟨"s9b", false, [("Network", ⟨true, some 1, none, none⟩), ("Page", ⟨false, none, none, none⟩)],
   [], [], 2, [(2, ⟨"x", 5⟩)], []⟩

/-- Every disable command fails remotely. -/
def c9failReply : String → Except (CDPError Nat) (Option Nat) :=
  fun _ => Except.error ⟨-1, "disable failed", none⟩

/-- Open session with one pending command (id 1, submitted at time 50). -/
def c10state : SessionState Nat := ⟨"sA", false, [], [], [], 1, [(1, ⟨"m0", 50⟩)], []⟩

theorem mapGet_set_self {κ ν : Type} [DecidableEq κ] (m : List (κ × ν)) (k : κ) (v : ν) :
    mapGet (mapSet m k v) k = some v := by
  induction m with
  | nil => simp [mapSet, mapGet]
  | cons kv rest ih =>
    obtain ⟨a, b⟩ := kv
    by_cases h : a = k
    · simp [mapSet, mapGet, h]
    · simp [mapSet, mapGet, h, ih]

theorem mapGet_set_ne {κ ν : Type} [DecidableEq κ] (m : List (κ × ν)) (k j : κ) (v : ν)
    (hjk : j ≠ k) : mapGet (mapSet m k v) j = mapGet m j := by
  induction m with
  | nil => simp [mapSet, mapGet, Ne.symm hjk]
  | cons kv rest ih =>
    obtain ⟨a, b⟩ := kv
    by_cases h : a = k
    · subst h
      simp [mapSet, mapGet, Ne.symm hjk]
    · simp [mapSet, mapGet, h, ih]

theorem mapGet_delete_self {κ ν : Type} [DecidableEq κ] (m : List (κ × ν)) (k : κ) :
    mapGet (mapDelete m k) k = none := by
  induction m with
  | nil => simp [mapDelete, mapGet]
  | cons kv rest ih =>
    obtain ⟨a, b⟩ := kv
    by_cases h : a = k
    · simp [mapDelete, h, ih]
    · simp [mapDelete, mapGet, h, ih]

theorem mapGet_delete_ne {κ ν : Type} [DecidableEq κ] (m : List (κ × ν)) (k j : κ)
    (hjk : j ≠ k) : mapGet (mapDelete m k) j = mapGet m j := by
  induction m with
  | nil => simp [mapDelete]
  | cons kv rest ih =>
    obtain ⟨a, b⟩ := kv
    by_cases h : a = k
    · subst h
      simp [mapDelete, mapGet, Ne.symm hjk, ih]
    · simp [mapDelete, mapGet, h, ih]

theorem mapSet_fresh {κ ν : Type} [DecidableEq κ] (m : List (κ × ν)) (k : κ) (v : ν)
    (hf : mapGet m k = none) : mapSet m k v = m ++ [(k, v)] := by
  induction m with
  | nil => simp [mapSet]
  | cons kv rest ih =>
    obtain ⟨a, b⟩ := kv
    by_cases h : a = k
    · simp [mapGet, h] at hf
    · simp [mapGet, h] at hf
      simp [mapSet, h, ih hf]

theorem mapGet_of_mem_nodup {κ ν : Type} [DecidableEq κ] (m : List (κ × ν)) (k : κ) (v : ν)
    (hnd : (m.map Prod.fst).Nodup) (hm : (k, v) ∈ m) : mapGet m k = some v := by
  induction m with
  | nil => cases hm
  | cons kv rest ih =>
    obtain ⟨a, b⟩ := kv
    rw [List.map_cons, List.nodup_cons] at hnd
    rcases List.mem_cons.mp hm with h | h
    · cases h
      simp [mapGet]
    · have hne : a ≠ k := by
        intro hak
        subst hak
        exact hnd.1 (List.mem_map.mpr ⟨(a, v), h, rfl⟩)
      simp only [mapGet, if_neg hne]
      exact ih hnd.2 h

theorem foldr_min_const (l : List Nat) (a : Nat) (h : ∀ x ∈ l, a ≤ x) :
    List.foldr min a l = a := by
  induction l with
  | nil => rfl
  | cons x l ih =>
    simp only [List.foldr_cons]
    rw [ih (fun y hy => h y (List.mem_cons_of_mem _ hy))]
    exact min_eq_right (h x (List.mem_cons_self _ _))

theorem bufferAppend_small {α : Type} (l : List α) (p : α) (h : l.length < 100) :
    bufferAppend l p = l ++ [p] := by
  have hc : ¬ ((l ++ [p]).length > 100) := by
    simp only [List.length_append, List.length_cons, List.length_nil]
    omega
  show (if (l ++ [p]).length > 100 then (l ++ [p]).tail else (l ++ [p])) = l ++ [p]
  rw [if_neg hc]

theorem bufferAppend_full {α : Type} (l : List α) (p : α) (h : l.length = 100) :
    bufferAppend l p = l.tail ++ [p] := by
  have hc : (l ++ [p]).length > 100 := by
    simp only [List.length_append, List.length_cons, List.length_nil]
    omega
  show (if (l ++ [p]).length > 100 then (l ++ [p]).tail else (l ++ [p])) = l.tail ++ [p]
  rw [if_pos hc]
  cases l with
  | nil => simp at h
  | cons x xs => simp

theorem length_bufferAppend_le {α : Type} (l : List α) (p : α) (h : l.length ≤ 100) :
    (bufferAppend l p).length ≤ 100 := by
  by_cases hl : l.length < 100
  · rw [bufferAppend_small l p hl]
    simp
    omega
  · have h100 : l.length = 100 := by omega
    rw [bufferAppend_full l p h100]
    simp
    omega

theorem foldl_bufferAppend {α : Type} (ps : List α) (l : List α) (hl : l.length ≤ 100) :
    List.foldl bufferAppend l ps = (l ++ ps).drop (l.length + ps.length - 100) := by
  induction ps generalizing l with
  | nil =>
    simp only [List.foldl_nil, List.append_nil, List.length_nil, Nat.add_zero]
    rw [Nat.sub_eq_zero_of_le hl, List.drop_zero]
  | cons p ps ih =>
    rw [List.foldl_cons]
    by_cases hlt : l.length < 100
    · rw [bufferAppend_small l p hlt, ih (l ++ [p]) (by simp; omega)]
      have e1 : (l ++ [p]).length + ps.length - 100 = l.length + (p :: ps).length - 100 := by
        simp
        omega
      rw [e1, List.append_assoc, List.singleton_append]
    · have h100 : l.length = 100 := by omega
      rw [bufferAppend_full l p h100, ih (l.tail ++ [p]) (by simp; omega)]
      cases l with
      | nil => simp at h100
      | cons x xs =>
        have hx : xs.length = 99 := by
          simp at h100
          omega
        simp only [List.tail_cons]
        have e1 : (xs ++ [p]).length + ps.length - 100 = ps.length := by
          simp [hx]
        have e2 : (x :: xs).length + (p :: ps).length - 100 = ps.length + 1 := by
          simp [hx]
        rw [e1, e2, List.append_assoc, List.singleton_append, List.cons_append,
          List.drop_succ_cons]

theorem foldl_bufferAppend_nil {α : Type} (ps : List α) :
    List.foldl bufferAppend ([] : List α) ps = ps.drop (ps.length - 100) := by
  have h := foldl_bufferAppend ps [] (by simp)
  simpa using h

theorem length_drop_min {α : Type} (ps : List α) :
    (ps.drop (ps.length - 100)).length = min ps.length 100 := by
  simp
  omega

theorem emitRun_no_throw {α : Type} (beh : Nat → Option α → Bool) (arg : Option α)
    (l : List Nat) (hb : ∀ g ∈ l, beh g arg = false) :
    emitRun beh arg l = ⟨l.map (fun g => (g, arg)), none⟩ := by
  induction l with
  | nil => rfl
  | cons g rest ih =>
    have hg := hb g (List.mem_cons_self _ _)
    simp [emitRun, hg, ih (fun x hx => hb x (List.mem_cons_of_mem _ hx))]

theorem emitRun_first_throw {α : Type} (beh : Nat → Option α → Bool) (arg : Option α)
    (l1 : List Nat) (g : Nat) (l2 : List Nat)
    (hok : ∀ x ∈ l1, beh x arg = false) (hth : beh g arg = true) :
    emitRun beh arg (l1 ++ g :: l2) = ⟨(l1 ++ [g]).map (fun x => (x, arg)), some g⟩ := by
  induction l1 with
  | nil => simp [emitRun, hth]
  | cons y rest ih =>
    have hy := hok y (List.mem_cons_self _ _)
    simp [emitRun, hy, ih (fun x hx => hok x (List.mem_cons_of_mem _ hx))]

theorem replayRun_no_throw {α : Type} (beh : Nat → Option α → Bool) (hd : Nat)
    (ps : List α) (hb : ∀ p ∈ ps, beh hd (some p) = false) :
    replayRun beh hd ps = ⟨ps.map (fun p => (hd, some p)), none⟩ := by
  induction ps with
  | nil => rfl
  | cons p rest ih =>
    have hp := hb p (List.mem_cons_self _ _)
    simp [replayRun, hp, ih (fun x hx => hb x (List.mem_cons_of_mem _ hx))]

theorem replayRun_first_throw {α : Type} (beh : Nat → Option α → Bool) (hd : Nat)
    (ps1 : List α) (p : α) (ps2 : List α)
    (hok : ∀ q ∈ ps1, beh hd (some q) = false) (hth : beh hd (some p) = true) :
    replayRun beh hd (ps1 ++ p :: ps2) = ⟨(ps1 ++ [p]).map (fun q => (hd, some q)), some hd⟩ := by
  induction ps1 with
  | nil => simp [replayRun, hth]
  | cons q rest ih =>
    have hq := hok q (List.mem_cons_self _ _)
    simp [replayRun, hq, ih (fun x hx => hok x (List.mem_cons_of_mem _ hx))]

theorem handleResponse_domains {α : Type} (s : SessionState α) (r : CDPResponse α) :
    (handleResponse s r).state.domains = s.domains := by
  unfold handleResponse
  cases mapGet s.pendingCommands r.id <;> rfl

theorem handleResponse_listeners {α : Type} (s : SessionState α) (r : CDPResponse α) :
    (handleResponse s r).state.listeners = s.listeners := by
  unfold handleResponse
  cases mapGet s.pendingCommands r.id <;> rfl

theorem handleResponse_closed {α : Type} (s : SessionState α) (r : CDPResponse α) :
    (handleResponse s r).state.closed = s.closed := by
  unfold handleResponse
  cases mapGet s.pendingCommands r.id <;> rfl

theorem send_state_open {α : Type} (s : SessionState α) (m : String) (now : Nat)
    (tf : Option String) (hopen : s.closed = false) :
    (send s m now tf).state
      = { s with commandId := s.commandId + 1,
                 pendingCommands := mapSet s.pendingCommands (s.commandId + 1) ⟨m, now⟩ } := by
  cases tf <;> simp [send, hopen]

theorem send_listeners {α : Type} (s : SessionState α) (m : String) (now : Nat)
    (tf : Option String) : (send s m now tf).state.listeners = s.listeners := by
  by_cases h : s.closed <;> cases tf <;> simp [send, h]

theorem send_domains {α : Type} (s : SessionState α) (m : String) (now : Nat)
    (tf : Option String) : (send s m now tf).state.domains = s.domains := by
  by_cases h : s.closed <;> cases tf <;> simp [send, h]

theorem send_closed {α : Type} (s : SessionState α) (m : String) (now : Nat)
    (tf : Option String) : (send s m now tf).state.closed = s.closed := by
  by_cases h : s.closed <;> cases tf <;> simp [send, h]

theorem handleEvent_state {α : Type} (beh : Nat → Option α → Bool) (s : SessionState α)
    (e : CDPEvent α) :
    (handleEvent beh s e).state
      = { s with eventBuffer := (mapSet s.eventBuffer e.method
            (bufferAppend ((mapGet s.eventBuffer e.method).getD []) e.params)) } := rfl

theorem processEvents_listeners {α : Type} (beh : Nat → Option α → Bool)
    (es : List (CDPEvent α)) (s : SessionState α) :
    (processEvents beh s es).state.listeners = s.listeners := by
  induction es generalizing s with
  | nil => rfl
  | cons e rest ih => simp [processEvents, ih, handleEvent_state]

theorem processEvents_eventHandlers {α : Type} (beh : Nat → Option α → Bool)
    (es : List (CDPEvent α)) (s : SessionState α) :
    (processEvents beh s es).state.eventHandlers = s.eventHandlers := by
  induction es generalizing s with
  | nil => rfl
  | cons e rest ih => simp [processEvents, ih, handleEvent_state]

theorem eventPayloads_cons_self {α : Type} (e : CDPEvent α) (rest : List (CDPEvent α))
    (m : String) (h : e.method = m) :
    eventPayloads (e :: rest) m = e.params :: eventPayloads rest m := by
  simp [eventPayloads, List.filter_cons, h]

theorem eventPayloads_cons_ne {α : Type} (e : CDPEvent α) (rest : List (CDPEvent α))
    (m : String) (h : ¬ (e.method = m)) :
    eventPayloads (e :: rest) m = eventPayloads rest m := by
  simp [eventPayloads, List.filter_cons, h]

theorem processEvents_buffer {α : Type} (beh : Nat → Option α → Bool)
    (es : List (CDPEvent α)) (s : SessionState α) (m : String) :
    (mapGet (processEvents beh s es).state.eventBuffer m).getD []
      = List.foldl bufferAppend ((mapGet s.eventBuffer m).getD []) (eventPayloads es m) := by
  induction es generalizing s with
  | nil => simp [processEvents, eventPayloads]
  | cons e rest ih =>
    simp only [processEvents]
    rw [ih]
    by_cases hm : e.method = m
    · subst hm
      rw [eventPayloads_cons_self e rest e.method rfl, List.foldl_cons, handleEvent_state]
      simp [mapGet_set_self]
    · rw [eventPayloads_cons_ne e rest m hm, handleEvent_state]
      show List.foldl bufferAppend
          ((mapGet (mapSet s.eventBuffer e.method
            (bufferAppend ((mapGet s.eventBuffer e.method).getD []) e.params)) m).getD [])
          (eventPayloads rest m)
        = List.foldl bufferAppend ((mapGet s.eventBuffer m).getD []) (eventPayloads rest m)
      rw [mapGet_set_ne _ _ _ _ (fun hh => hm hh.symm)]

theorem processEvents_single_listener {α : Type} (beh : Nat → Option α → Bool) (ev : String)
    (hd : Nat) (hbeh : ∀ p, beh hd p = false) (es : List (CDPEvent α)) (s : SessionState α)
    (hl : s.listeners = [(ev, [hd])]) :
    (processEvents beh s es).invoked = (eventPayloads es ev).map (fun p => (hd, some p)) := by
  induction es generalizing s with
  | nil => simp [processEvents, eventPayloads]
  | cons e rest ih =>
    have hl2 : (handleEvent beh s e).state.listeners = [(ev, [hd])] := by
      rw [handleEvent_state]
      simpa using hl
    simp only [processEvents]
    rw [ih _ hl2]
    by_cases hm : e.method = ev
    · rw [eventPayloads_cons_self e rest ev hm]
      have hinv : (handleEvent beh s e).invoked = [(hd, some e.params)] := by
        simp [handleEvent, hl, hm, mapGet, emitRun, hbeh]
      rw [hinv]
      simp
    · rw [eventPayloads_cons_ne e rest ev hm]
      have hinv : (handleEvent beh s e).invoked = [] := by
        simp [handleEvent, hl, mapGet, Ne.symm hm, emitRun]
      rw [hinv]
      simp

theorem subscribe_fresh {α : Type} (beh : Nat → Option α → Bool) (s : SessionState α)
    (ev : String) (hd : Nat) (hbeh : ∀ p, beh hd p = false)
    (hH : s.eventHandlers = []) (hL : s.listeners = []) :
    subscribe beh s ev hd
      = ⟨{ s with eventHandlers := [(ev, [hd])], listeners := [(ev, [hd])] },
         ((mapGet s.eventBuffer ev).getD []).map (fun p => (hd, some p)), none⟩ := by
  have hre := replayRun_no_throw beh hd ((mapGet s.eventBuffer ev).getD [])
    (fun p _ => hbeh (some p))
  simp [subscribe, hH, hL, mapGet, setAdd, hre, mapSet]

theorem handleConnectionClosed_rejections {α : Type} (beh : Nat → Option α → Bool)
    (s : SessionState α) :
    (handleConnectionClosed beh s).rejections
      = s.pendingCommands.map (fun kv => (kv.1, Outcome.exception "Connection closed")) := by
  unfold handleConnectionClosed
  dsimp only
  split <;> rfl

theorem handleConnectionClosed_closed {α : Type} (beh : Nat → Option α → Bool)
    (s : SessionState α) : (handleConnectionClosed beh s).state.closed = true := by
  unfold handleConnectionClosed
  dsimp only
  split <;> rfl

theorem handleConnectionClosed_pending {α : Type} (beh : Nat → Option α → Bool)
    (s : SessionState α) : (handleConnectionClosed beh s).state.pendingCommands = [] := by
  unfold handleConnectionClosed
  dsimp only
  split <;> rfl

theorem handleConnectionClosed_domains {α : Type} (beh : Nat → Option α → Bool)
    (s : SessionState α) : (handleConnectionClosed beh s).state.domains = [] := by
  unfold handleConnectionClosed
  dsimp only
  split <;> rfl

theorem handleConnectionClosed_eventBuffer {α : Type} (beh : Nat → Option α → Bool)
    (s : SessionState α) : (handleConnectionClosed beh s).state.eventBuffer = [] := by
  unfold handleConnectionClosed
  dsimp only
  split <;> rfl

theorem handleConnectionClosed_eventHandlers {α : Type} (beh : Nat → Option α → Bool)
    (s : SessionState α) : (handleConnectionClosed beh s).state.eventHandlers = [] := by
  unfold handleConnectionClosed
  dsimp only
  split <;> rfl

theorem handleConnectionClosed_thrown {α : Type} (beh : Nat → Option α → Bool)
    (s : SessionState α) :
    (handleConnectionClosed beh s).thrown
      = (emitRun beh none ((mapGet s.listeners "closed").getD [])).thrown := by
  unfold handleConnectionClosed
  dsimp only
  split
  next heq => rw [heq]
  next heq => rw [heq]

theorem disableCall_listeners {α : Type} (s : SessionState α) (d : String) (a b : Nat)
    (rep : Except (CDPError α) (Option α)) :
    (disableCall s d a b rep).state.listeners = s.listeners := by
  unfold disableCall
  cases hg : mapGet s.domains d with
  | none => rfl
  | some st =>
    dsimp only
    by_cases he : st.enabled = true
    · rw [if_pos he]
      cases rep <;> simp [handleResponse_listeners, send_listeners]
    · rw [if_neg he]

theorem disableCall_closed {α : Type} (s : SessionState α) (d : String) (a b : Nat)
    (rep : Except (CDPError α) (Option α)) :
    (disableCall s d a b rep).state.closed = s.closed := by
  unfold disableCall
  cases hg : mapGet s.domains d with
  | none => rfl
  | some st =>
    dsimp only
    by_cases he : st.enabled = true
    · rw [if_pos he]
      cases rep <;> simp [handleResponse_closed, send_closed]
    · rw [if_neg he]

theorem disableCall_get_other {α : Type} (s : SessionState α) (d : String) (a b : Nat)
    (rep : Except (CDPError α) (Option α)) (d2 : String) (hne : d2 ≠ d) :
    mapGet (disableCall s d a b rep).state.domains d2 = mapGet s.domains d2 := by
  unfold disableCall
  cases hg : mapGet s.domains d with
  | none => rfl
  | some st =>
    dsimp only
    by_cases he : st.enabled = true
    · rw [if_pos he]
      cases rep with
      | ok v =>
        dsimp only
        rw [mapGet_set_ne _ _ _ _ hne, handleResponse_domains, send_domains]
      | error e =>
        dsimp only
        rw [handleResponse_domains, send_domains]
    · rw [if_neg he]

theorem disableCall_issued_enabled {α : Type} (s : SessionState α) (d : String) (a b : Nat)
    (rep : Except (CDPError α) (Option α)) (st : DomainState α)
    (hg : mapGet s.domains d = some st) (he : st.enabled = true) :
    (disableCall s d a b rep).issued = [d ++ ".disable"] := by
  unfold disableCall
  rw [hg]
  dsimp only
  rw [if_pos he]
  cases rep <;> rfl

theorem closeCall_closed_noop {α : Type} (beh : Nat → Option α → Bool) (s : SessionState α)
    (dr : String → Except (CDPError α) (Option α)) (now : Nat) (cc : Option String)
    (h : s.closed = true) : closeCall beh s dr now cc = ⟨s, [], none⟩ := by
  unfold closeCall
  rw [if_pos h]

theorem closeFold_listeners {α : Type} (dr : String → Except (CDPError α) (Option α))
    (now : Nat) (ds : List String) (acc : SessionState α × List String) :
    (ds.foldl (closeDisableStep dr now) acc).1.listeners = acc.1.listeners := by
  induction ds generalizing acc with
  | nil => rfl
  | cons d rest ih =>
    rw [List.foldl_cons, ih]
    simp [closeDisableStep, disableCall_listeners]

theorem closeFold_issued {α : Type} (dr : String → Except (CDPError α) (Option α))
    (now : Nat) (ds : List String) (st : SessionState α) (acc : List String)
    (hnd : ds.Nodup)
    (hen : ∀ d ∈ ds, ∃ stt, mapGet st.domains d = some stt ∧ stt.enabled = true) :
    (ds.foldl (closeDisableStep dr now) (st, acc)).2
      = acc ++ ds.map (fun d => d ++ ".disable") := by
  induction ds generalizing st acc with
  | nil => simp
  | cons d rest ih =>
    obtain ⟨stt, hstt, hen1⟩ := hen d (List.mem_cons_self _ _)
    rw [List.foldl_cons]
    have hstep : closeDisableStep dr now (st, acc) d
        = ((disableCall st d now now (dr d)).state, acc ++ [d ++ ".disable"]) := by
      simp [closeDisableStep, disableCall_issued_enabled st d now now (dr d) stt hstt hen1]
    rw [hstep]
    rw [ih _ _ (List.nodup_cons.mp hnd).2]
    · simp
    · intro d2 hd2
      obtain ⟨stt2, hstt2, hen2⟩ := hen d2 (List.mem_cons_of_mem _ hd2)
      have hne : d2 ≠ d := by
        intro hcon
        subst hcon
        exact (List.nodup_cons.mp hnd).1 hd2
      exact ⟨stt2, by rw [disableCall_get_other st d now now (dr d) d2 hne]; exact hstt2, hen2⟩

theorem enabledDoms_nodup {α : Type} (s : SessionState α)
    (hnd : (s.domains.map Prod.fst).Nodup) :
    ((s.domains.filter (fun kv => kv.2.enabled)).map (fun kv => kv.1)).Nodup := by
  have hsub : List.Sublist ((s.domains.filter (fun kv => kv.2.enabled)).map Prod.fst)
      (s.domains.map Prod.fst) :=
    List.Sublist.map Prod.fst (List.filter_sublist s.domains)
  exact hnd.sublist hsub

theorem enabledDoms_enabled {α : Type} (s : SessionState α)
    (hnd : (s.domains.map Prod.fst).Nodup) (d : String)
    (hd : d ∈ (s.domains.filter (fun kv => kv.2.enabled)).map (fun kv => kv.1)) :
    ∃ stt, mapGet s.domains d = some stt ∧ stt.enabled = true := by
  obtain ⟨kv, hkv, hfst⟩ := List.mem_map.mp hd
  obtain ⟨hmem, hen⟩ := List.mem_filter.mp hkv
  refine ⟨kv.2, ?_, by simpa using hen⟩
  have : (d, kv.2) ∈ s.domains := by
    have : kv = (d, kv.2) := by
      obtain ⟨x, y⟩ := kv
      simp at hfst
      simp [hfst]
    rw [← this]
    exact hmem
  exact mapGet_of_mem_nodup s.domains d kv.2 hnd this

theorem initLoop_all_ok (cf : String → Option String) (ds : List String)
    (hok : ∀ d ∈ ds, cf (d ++ ".enable") = none) :
    initLoop false cf ds = ⟨ds.map (fun d => d ++ ".enable"), [], none⟩ := by
  induction ds with
  | nil => rfl
  | cons d rest ih =>
    have hd := hok d (List.mem_cons_self _ _)
    simp [initLoop, enableDomain, mgrSend, hd,
      ih (fun x hx => hok x (List.mem_cons_of_mem _ hx))]

theorem initLoop_append_ok (cf : String → Option String) (pre rest : List String)
    (hok : ∀ d ∈ pre, cf (d ++ ".enable") = none) :
    initLoop false cf (pre ++ rest)
      = ⟨pre.map (fun d => d ++ ".enable") ++ (initLoop false cf rest).attempted,
         (initLoop false cf rest).warnings, (initLoop false cf rest).raised⟩ := by
  induction pre with
  | nil => simp
  | cons d p ih =>
    have hd := hok d (List.mem_cons_self _ _)
    simp [initLoop, enableDomain, mgrSend, hd,
      ih (fun x hx => hok x (List.mem_cons_of_mem _ hx))]

theorem initLoop_critical_fail (cf : String → Option String) (d : String) (post : List String)
    (msg : String) (hcrit : isCriticalDomain d = true) (hf : cf (d ++ ".enable") = some msg) :
    initLoop false cf (d :: post)
      = ⟨[d ++ ".enable"], [], some (MgrError.cdpError (-32000) msg)⟩ := by
  simp [initLoop, enableDomain, mgrSend, hf, hcrit]

theorem initLoop_aux_fail (cf : String → Option String) (d : String) (rest : List String)
    (msg : String) (haux : isCriticalDomain d = false) (hf : cf (d ++ ".enable") = some msg) :
    initLoop false cf (d :: rest)
      = ⟨(d ++ ".enable") :: (initLoop false cf rest).attempted,
         d :: (initLoop false cf rest).warnings, (initLoop false cf rest).raised⟩ := by
  simp [initLoop, enableDomain, mgrSend, hf, haux]

theorem initializeRun_closedAfter (closed : Bool) (cf : String → Option String) :
    (initializeRun closed cf).closedAfter = closed := by
  unfold initializeRun
  dsimp only
  split
  next => rfl
  next =>
    split
    next => rfl
    next =>
      split <;> rfl

theorem initializeRun_of_loop_raised (closed : Bool) (cf : String → Option String)
    (e : MgrError) (h : (initLoop closed cf REQUIRED_DOMAINS).raised = some e) :
    (initializeRun closed cf).result
      = ⟨(initLoop closed cf REQUIRED_DOMAINS).attempted,
         (initLoop closed cf REQUIRED_DOMAINS).warnings, some e⟩ := by
  simp [initializeRun, h]

theorem enableCall_ok_get {α : Type} (s : SessionState α) (domain : String) (config : Option α)
    (sendNow finishNow : Nat) (v : Option α) (hnot : isDomainEnabled s domain = false) :
    mapGet (enableCall s domain config sendNow finishNow (Except.ok v)).state.domains domain
      = some ⟨true, some finishNow, none, config⟩ := by
  unfold enableCall
  rw [if_neg (by simp [hnot])]
  dsimp only
  rw [mapGet_set_self]

/-- C1: an incoming response whose id matches a pending command removes exactly
that entry (all other pending entries are untouched) and settles its future:
rejected with the response's error payload verbatim when an `error` field is
present, resolved with the result otherwise.  A response whose id matches no
pending entry changes no state.  For any arrival order of distinct-id responses
that all match pending entries, each response settles exactly the call bearing
its id, so out-of-submission-order arrival still resolves the original calls. -/
theorem c1_response_correlation {α : Type} :
    (∀ (s : SessionState α) (r : CDPResponse α) (p : PendingCommand),
      mapGet s.pendingCommands r.id = some p →
      (handleResponse s r).state.pendingCommands = mapDelete s.pendingCommands r.id ∧
      mapGet (handleResponse s r).state.pendingCommands r.id = none ∧
      (∀ j, j ≠ r.id →
        mapGet (handleResponse s r).state.pendingCommands j = mapGet s.pendingCommands j) ∧
      (handleResponse s r).settled = some (r.id, responseOutcome r) ∧
      (∀ e, r.error = some e → responseOutcome r = Outcome.protocolError e) ∧
      (r.error = none → responseOutcome r = Outcome.resolved r.result)) ∧
    (∀ (s : SessionState α) (r : CDPResponse α),
      mapGet s.pendingCommands r.id = none → handleResponse s r = ⟨s, none⟩) ∧
    (∀ (s : SessionState α) (rs : List (CDPResponse α)),
      (∀ r ∈ rs, (mapGet s.pendingCommands r.id).isSome = true) →
      rs.Pairwise (fun r1 r2 => r1.id ≠ r2.id) →
      ∀ r ∈ rs, (r.id, responseOutcome r) ∈ (processResponses s rs).settled) := by
  refine ⟨?_, ?_, ?_⟩
  · intro s r p hp
    refine ⟨?_, ?_, ?_, ?_, ?_, ?_⟩
    · simp [handleResponse, hp]
    · simp [handleResponse, hp, mapGet_delete_self]
    · intro j hj
      simp [handleResponse, hp, mapGet_delete_ne _ _ _ hj]
    · simp [handleResponse, hp]
    · intro e he
      simp [responseOutcome, he]
    · intro he
      simp [responseOutcome, he]
  · intro s r hp
    simp [handleResponse, hp]
  · intro s rs hall hdist
    induction rs generalizing s with
    | nil =>
      intro r hr
      cases hr
    | cons r1 rest ih =>
      intro r hr
      have h1 : (mapGet s.pendingCommands r1.id).isSome = true :=
        hall r1 (List.mem_cons_self _ _)
      obtain ⟨p1, hp1⟩ := Option.isSome_iff_exists.mp h1
      have hstep : processResponses s (r1 :: rest)
          = ⟨(processResponses
                { s with pendingCommands := mapDelete s.pendingCommands r1.id } rest).state,
             (r1.id, responseOutcome r1)
               :: (processResponses
                { s with pendingCommands := mapDelete s.pendingCommands r1.id } rest).settled⟩ := by
        simp [processResponses, handleResponse, hp1]
      rcases List.mem_cons.mp hr with heq | hmem
      · subst heq
        rw [hstep]
        exact List.mem_cons_self _ _
      · have hall2 : ∀ r2 ∈ rest,
            (mapGet ({ s with pendingCommands := mapDelete s.pendingCommands r1.id } :
              SessionState α).pendingCommands r2.id).isSome = true := by
          intro r2 hr2
          have hne2 : r2.id ≠ r1.id := by
            have hx := (List.pairwise_cons.mp hdist).1 r2 hr2
            exact fun hc => hx hc.symm
          show (mapGet (mapDelete s.pendingCommands r1.id) r2.id).isSome = true
          rw [mapGet_delete_ne _ _ _ hne2]
          exact hall r2 (List.mem_cons_of_mem _ hr2)
        have hmem2 := ih _ hall2 (List.pairwise_cons.mp hdist).2 r hmem
        rw [hstep]
        exact List.mem_cons_of_mem _ hmem2

/-- Witness for C1: on a session with pending ids 1..3, responses arriving in
the order 2, 3, 1 settle the matching calls with their own results; an error
response rejects with the payload verbatim; an unmatched id is discarded. -/
theorem c1_witness :
    ((1, Outcome.resolved (some 10)) ∈ (processResponses c1state c1responses).settled ∧
     (2, Outcome.resolved (some 20)) ∈ (processResponses c1state c1responses).settled ∧
     (3, Outcome.resolved (some 30)) ∈ (processResponses c1state c1responses).settled) ∧
    (handleResponse c1state c1errResponse).settled
      = some (1, Outcome.protocolError ⟨-32601, "method not found", some 7⟩) ∧
    handleResponse c1state c1unknownResponse = ⟨c1state, none⟩ := by
  refine ⟨⟨?_, ?_, ?_⟩, ?_, ?_⟩
  · exact c1_response_correlation.2.2 c1state c1responses (by decide) (by decide)
      ⟨1, some 10, none⟩ (by decide)
  · exact c1_response_correlation.2.2 c1state c1responses (by decide) (by decide)
      ⟨2, some 20, none⟩ (by decide)
  · exact c1_response_correlation.2.2 c1state c1responses (by decide) (by decide)
      ⟨3, some 30, none⟩ (by decide)
  · exact (c1_response_correlation.1 c1state c1errResponse ⟨"m1", 10⟩ (by decide)).2.2.2.1
  · exact c1_response_correlation.2.1 c1state c1unknownResponse (by decide)

/-- C2: when a session closes, every pending command's future is rejected with
the `Connection closed` error and none is left unresolved; afterwards the
domains map, pending-command table, event buffers and subscriber sets are all
empty; and on any closed session `send` throws immediately, unchanged state,
creating no pending entry. -/
theorem c2_close_rejects_and_clears {α : Type} (beh : Nat → Option α → Bool)
    (s : SessionState α) :
    (handleConnectionClosed beh s).rejections
      = s.pendingCommands.map (fun kv => (kv.1, Outcome.exception "Connection closed")) ∧
    (∀ kv ∈ s.pendingCommands,
      (kv.1, Outcome.exception "Connection closed")
        ∈ (handleConnectionClosed beh s).rejections) ∧
    (handleConnectionClosed beh s).state.closed = true ∧
    (handleConnectionClosed beh s).state.domains = [] ∧
    (handleConnectionClosed beh s).state.pendingCommands = [] ∧
    (handleConnectionClosed beh s).state.eventBuffer = [] ∧
    (handleConnectionClosed beh s).state.eventHandlers = [] ∧
    (∀ (s2 : SessionState α) (method : String) (now : Nat) (tf : Option String),
      s2.closed = true →
      send s2 method now tf
        = ⟨s2, SendOutcome.threwClosed ("CDP session " ++ s2.sessionId ++ " is closed")⟩) := by
  refine ⟨handleConnectionClosed_rejections beh s, ?_, handleConnectionClosed_closed beh s,
    handleConnectionClosed_domains beh s, handleConnectionClosed_pending beh s,
    handleConnectionClosed_eventBuffer beh s, handleConnectionClosed_eventHandlers beh s, ?_⟩
  · intro kv hkv
    rw [handleConnectionClosed_rejections beh s]
    exact List.mem_map.mpr ⟨kv, hkv, rfl⟩
  · intro s2 method now tf hcl
    simp [send, hcl]

/-- Witness for C2 on a concrete session with two pending commands and state
in every map. -/
theorem c2_witness :
    (handleConnectionClosed exBeh c2state).rejections
      = [(1, Outcome.exception "Connection closed"),
         (2, Outcome.exception "Connection closed")] ∧
    (handleConnectionClosed exBeh c2state).state.domains = [] ∧
    (handleConnectionClosed exBeh c2state).state.pendingCommands = [] ∧
    (handleConnectionClosed exBeh c2state).state.eventBuffer = [] ∧
    (handleConnectionClosed exBeh c2state).state.eventHandlers = [] ∧
    send (handleConnectionClosed exBeh c2state).state "Page.enable" 7 none
      = ⟨(handleConnectionClosed exBeh c2state).state,
         SendOutcome.threwClosed "CDP session s2 is closed"⟩ := by
  have h := c2_close_rejects_and_clears exBeh c2state
  refine ⟨?_, h.2.2.2.1, h.2.2.2.2.1, h.2.2.2.2.2.1, h.2.2.2.2.2.2.1, ?_⟩
  · rw [h.1]
    decide
  · exact h.2.2.2.2.2.2.2 _ "Page.enable" 7 none h.2.2.1

/-- C3: appending an incoming event's payload keeps the per-name buffer at or
below 100 entries; appending to a full buffer of 100 evicts exactly the oldest
entry; buffers for other names are untouched; and after any event sequence from
a fresh session, each name's buffer holds exactly the most recent `min(N, 100)`
payloads in arrival order. -/
theorem c3_buffer_capacity {α : Type} (beh : Nat → Option α → Bool) :
    (∀ (s : SessionState α) (e : CDPEvent α),
      ((mapGet s.eventBuffer e.method).getD []).length ≤ 100 →
      ((mapGet (handleEvent beh s e).state.eventBuffer e.method).getD []
          = bufferAppend ((mapGet s.eventBuffer e.method).getD []) e.params ∧
       ((mapGet (handleEvent beh s e).state.eventBuffer e.method).getD []).length ≤ 100 ∧
       (((mapGet s.eventBuffer e.method).getD []).length = 100 →
         (mapGet (handleEvent beh s e).state.eventBuffer e.method).getD []
           = ((mapGet s.eventBuffer e.method).getD []).tail ++ [e.params]) ∧
       (∀ m, m ≠ e.method →
         mapGet (handleEvent beh s e).state.eventBuffer m = mapGet s.eventBuffer m))) ∧
    (∀ (sid : String) (es : List (CDPEvent α)) (m : String),
      (mapGet (processEvents beh (SessionState.initial sid) es).state.eventBuffer m).getD []
        = (eventPayloads es m).drop ((eventPayloads es m).length - 100) ∧
      ((mapGet (processEvents beh (SessionState.initial sid) es).state.eventBuffer m).getD
          []).length
        = min (eventPayloads es m).length 100) := by
  refine ⟨?_, ?_⟩
  · intro s e hlen
    have hbuf : (mapGet (handleEvent beh s e).state.eventBuffer e.method).getD []
        = bufferAppend ((mapGet s.eventBuffer e.method).getD []) e.params := by
      rw [handleEvent_state]
      show (mapGet (mapSet s.eventBuffer e.method
          (bufferAppend ((mapGet s.eventBuffer e.method).getD []) e.params)) e.method).getD []
        = _
      rw [mapGet_set_self]
      rfl
    refine ⟨hbuf, ?_, ?_, ?_⟩
    · rw [hbuf]
      exact length_bufferAppend_le _ _ hlen
    · intro h100
      rw [hbuf]
      exact bufferAppend_full _ _ h100
    · intro m hm
      rw [handleEvent_state]
      show mapGet (mapSet s.eventBuffer e.method
          (bufferAppend ((mapGet s.eventBuffer e.method).getD []) e.params)) m = _
      exact mapGet_set_ne _ _ _ _ hm
  · intro sid es m
    have hb := processEvents_buffer beh es (SessionState.initial sid) m
    have hinit : ((mapGet (SessionState.initial sid : SessionState α).eventBuffer m).getD [])
        = [] := rfl
    rw [hinit, foldl_bufferAppend_nil] at hb
    refine ⟨hb, ?_⟩
    rw [hb]
    exact length_drop_min _

/-- Witness for C3: a 101st event for a full buffer evicts the oldest entry;
three events named `E` interleaved with others leave exactly their payloads in
arrival order. -/
theorem c3_witness :
    ((mapGet (handleEvent exBeh c3state ⟨"E", 7, none⟩).state.eventBuffer "E").getD []
       = List.replicate 99 0 ++ [7]) ∧
    ((mapGet (processEvents exBeh (SessionState.initial "s3b") c3es).state.eventBuffer
        "E").getD [] = [1, 2, 3]) := by
  refine ⟨?_, ?_⟩
  · have h := (c3_buffer_capacity exBeh).1 c3state ⟨"E", 7, none⟩ (by decide)
    have h100 : ((mapGet c3state.eventBuffer "E").getD []).length = 100 := by decide
    rw [h.2.2.1 h100]
    decide
  · have h := (c3_buffer_capacity exBeh).2 "s3b" c3es "E"
    rw [h.1]
    decide

/-- C4: after N events from a fresh session, `subscribe(ev, h)` (for a handler
that does not throw) completes without throwing, replays to the handler exactly
the buffered `min(N, 100)` most recent payloads for `ev`, oldest first, and
only afterwards are later live events for `ev` delivered to it — each exactly
once, in arrival order, with no duplication and no reordering. -/
theorem c4_subscribe_replay {α : Type} (sid : String) (beh : Nat → Option α → Bool)
    (es0 es1 : List (CDPEvent α)) (ev : String) (hd : Nat)
    (hbeh : ∀ p, beh hd p = false) :
    (subscribe beh (processEvents beh (SessionState.initial sid) es0).state ev hd).thrown
      = none ∧
    (subscribe beh (processEvents beh (SessionState.initial sid) es0).state ev hd).invoked
      = ((eventPayloads es0 ev).drop ((eventPayloads es0 ev).length - 100)).map
          (fun p => (hd, some p)) ∧
    (subscribe beh (processEvents beh (SessionState.initial sid) es0).state ev
        hd).invoked.length
      = min (eventPayloads es0 ev).length 100 ∧
    (processEvents beh
        (subscribe beh (processEvents beh (SessionState.initial sid) es0).state ev hd).state
        es1).invoked
      = (eventPayloads es1 ev).map (fun p => (hd, some p)) := by
  have hH : (processEvents beh (SessionState.initial sid : SessionState α)
      es0).state.eventHandlers = [] := by
    rw [processEvents_eventHandlers]
    rfl
  have hL : (processEvents beh (SessionState.initial sid : SessionState α)
      es0).state.listeners = [] := by
    rw [processEvents_listeners]
    rfl
  have hB0 : ((mapGet (SessionState.initial sid : SessionState α).eventBuffer ev).getD [])
      = [] := rfl
  have hB : (mapGet (processEvents beh (SessionState.initial sid : SessionState α)
        es0).state.eventBuffer ev).getD []
      = (eventPayloads es0 ev).drop ((eventPayloads es0 ev).length - 100) := by
    rw [processEvents_buffer, hB0, foldl_bufferAppend_nil]
  have hsub := subscribe_fresh beh
    (processEvents beh (SessionState.initial sid : SessionState α) es0).state ev hd hbeh hH hL
  rw [hsub]
  dsimp only
  refine ⟨rfl, ?_, ?_, ?_⟩
  · rw [hB]
  · rw [hB, List.length_map]
    exact length_drop_min _
  · exact processEvents_single_listener beh ev hd hbeh es1 _ rfl

/-- Witness for C4: handler 0 never throws; after events `E 1, F 5, E 2, E 3`
its subscription to `E` replays `1, 2, 3` oldest first, and the later live
events `E 9, F 6` deliver exactly `9` to it afterwards. -/
theorem c4_witness :
    (∀ p, exBeh 0 p = false) ∧
    (subscribe exBeh (processEvents exBeh (SessionState.initial "s4") c4es0).state
        "E" 0).invoked = [(0, some 1), (0, some 2), (0, some 3)] ∧
    (processEvents exBeh
        (subscribe exBeh (processEvents exBeh (SessionState.initial "s4") c4es0).state
          "E" 0).state c4es1).invoked = [(0, some 9)] := by
  refine ⟨fun p => rfl, ?_, ?_⟩
  · rw [(c4_subscribe_replay "s4" exBeh c4es0 c4es1 "E" 0 (fun p => rfl)).2.1]
    decide
  · rw [(c4_subscribe_replay "s4" exBeh c4es0 c4es1 "E" 0 (fun p => rfl)).2.2.2]
    decide

/-- C5: on an open session, `enable` is a no-op (no command issued, no state
change) when the domain is already recorded enabled; otherwise it issues
exactly one enable command, and only on a successful reply records
`enabled = true` with `enableTime` and `config`; on a failed reply the domains
map is exactly what it was before the call and the error propagates. -/
theorem c5_enable_idempotent_atomic {α : Type} (s : SessionState α) (domain : String)
    (config : Option α) (sendNow finishNow : Nat) (reply : Except (CDPError α) (Option α))
    (_hopen : s.closed = false) :
    (isDomainEnabled s domain = true →
      enableCall s domain config sendNow finishNow reply = ⟨s, [], none⟩) ∧
    (isDomainEnabled s domain = false →
      (enableCall s domain config sendNow finishNow reply).issued = [domain ++ ".enable"] ∧
      (∀ v, reply = Except.ok v →
        mapGet (enableCall s domain config sendNow finishNow reply).state.domains domain
          = some ⟨true, some finishNow, none, config⟩ ∧
        (enableCall s domain config sendNow finishNow reply).raised = none) ∧
      (∀ e, reply = Except.error e →
        (enableCall s domain config sendNow finishNow reply).state.domains = s.domains ∧
        (enableCall s domain config sendNow finishNow reply).raised = some e)) := by
  refine ⟨?_, ?_⟩
  · intro hen
    simp [enableCall, hen]
  · intro hnot
    refine ⟨?_, ?_, ?_⟩
    · unfold enableCall
      rw [if_neg (by simp [hnot])]
      dsimp only
      cases reply <;> rfl
    · intro v hv
      subst hv
      refine ⟨enableCall_ok_get s domain config sendNow finishNow v hnot, ?_⟩
      unfold enableCall
      rw [if_neg (by simp [hnot])]
    · intro e he
      subst he
      unfold enableCall
      rw [if_neg (by simp [hnot])]
      dsimp only
      exact ⟨by rw [handleResponse_domains, send_domains], rfl⟩

/-- Witness for C5 on a fresh session: a successful `Network.enable` records
the domain state; a failed one leaves `domains` unchanged and propagates the
error; a second call after success is a complete no-op. -/
theorem c5_witness :
    (enableCall c5state "Network" (some 1) 5 6 (Except.ok none)).issued
      = ["Network.enable"] ∧
    mapGet (enableCall c5state "Network" (some 1) 5 6 (Except.ok none)).state.domains
        "Network" = some ⟨true, some 6, none, some 1⟩ ∧
    (enableCall c5state "Network" (some 1) 5 6
        (Except.error ⟨-32601, "no", none⟩)).state.domains = c5state.domains ∧
    (enableCall c5state "Network" (some 1) 5 6 (Except.error ⟨-32601, "no", none⟩)).raised
      = some ⟨-32601, "no", none⟩ ∧
    enableCall (enableCall c5state "Network" (some 1) 5 6 (Except.ok none)).state "Network"
        (some 2) 7 8 (Except.ok none)
      = ⟨(enableCall c5state "Network" (some 1) 5 6 (Except.ok none)).state, [], none⟩ := by
  have h1 := c5_enable_idempotent_atomic c5state "Network" (some 1) 5 6 (Except.ok none) rfl
  have h2 := c5_enable_idempotent_atomic c5state "Network" (some 1) 5 6
    (Except.error ⟨-32601, "no", none⟩) rfl
  have h3 := c5_enable_idempotent_atomic
    (enableCall c5state "Network" (some 1) 5 6 (Except.ok none)).state "Network"
    (some 2) 7 8 (Except.ok none) (by decide)
  exact ⟨(h1.2 rfl).1, ((h1.2 rfl).2.1 none rfl).1, ((h2.2 rfl).2.2 _ rfl).1,
    ((h2.2 rfl).2.2 _ rfl).2, h3.1 (by decide)⟩

/-- Counterexample to C6: two concurrent `enable("Network")` calls on a fresh
open session — the second starting before the first command's reply — each
issue an underlying `Network.enable` command: two in total, not one. -/
theorem c6_counterexample :
    (enableStart c6state "Network" 5).2
        ++ (enableStart (enableStart c6state "Network" 5).1 "Network" 6).2
      = ["Network.enable", "Network.enable"] ∧
    ¬ ((enableStart c6state "Network" 5).2
        ++ (enableStart (enableStart c6state "Network" 5).1 "Network" 6).2).length = 1 := by
  decide

/-- C6 amended: two `enable(domain)` calls on the same open session where the
second starts before the first command's reply each issue an enable command
(two in total — concurrent calls are not deduplicated).  Only once a
successful enable has recorded `enabled = true` does a later `enable` call
issue no command. -/
theorem c6_concurrent_enable {α : Type} (s : SessionState α) (domain : String) (t1 t2 : Nat)
    (_hopen : s.closed = false) (hnot : isDomainEnabled s domain = false) :
    (enableStart s domain t1).2
        ++ (enableStart (enableStart s domain t1).1 domain t2).2
      = [domain ++ ".enable", domain ++ ".enable"] ∧
    (∀ (config : Option α) (a b : Nat) (v : Option α) (t3 : Nat),
      enableStart (enableCall s domain config a b (Except.ok v)).state domain t3
        = ((enableCall s domain config a b (Except.ok v)).state, [])) := by
  constructor
  · have h1 : enableStart s domain t1
        = ((send s (domain ++ ".enable") t1 none).state, [domain ++ ".enable"]) := by
      unfold enableStart
      rw [if_neg (by simp [hnot])]
    have hnot2 : isDomainEnabled (send s (domain ++ ".enable") t1 none).state domain
        = false := by
      unfold isDomainEnabled
      rw [send_domains]
      exact hnot
    have h2 : enableStart (send s (domain ++ ".enable") t1 none).state domain t2
        = ((send (send s (domain ++ ".enable") t1 none).state (domain ++ ".enable") t2
            none).state, [domain ++ ".enable"]) := by
      unfold enableStart
      rw [if_neg (by simp [hnot2])]
    rw [h1]
    dsimp only
    rw [h2]
    rfl
  · intro config a b v t3
    have hen : isDomainEnabled (enableCall s domain config a b (Except.ok v)).state domain
        = true := by
      unfold isDomainEnabled
      rw [enableCall_ok_get s domain config a b v hnot]
    unfold enableStart
    rw [if_pos hen]

/-- Witness for the amended C6 at concrete inputs. -/
theorem c6_witness :
    (enableStart c6state "Network" 5).2
        ++ (enableStart (enableStart c6state "Network" 5).1 "Network" 6).2
      = ["Network.enable", "Network.enable"] ∧
    enableStart (enableCall c6state "Network" none 1 2 (Except.ok none)).state "Network" 7
      = ((enableCall c6state "Network" none 1 2 (Except.ok none)).state, []) := by
  have h := c6_concurrent_enable c6state "Network" 5 6 rfl rfl
  exact ⟨h.1, h.2 none 1 2 none 7⟩

/-- Counterexample to C7: with handler 1 (which throws) and handler 2
subscribed in that order to the same event, an incoming event is delivered to
handler 1 only; handler 2 — still subscribed — is skipped and the exception
escapes to the event source instead of being swallowed. -/
theorem c7_counterexample :
    c7run.invoked = [(1, some 42)] ∧ c7run.thrown = some 1 := by
  decide

/-- C7 amended: a failing handler is not isolated.  When no handler throws,
delivery reaches every listener in registration order; when one throws during
live fan-out, listeners after it are skipped and the exception propagates to
the event source (`handleEvent` rethrows exactly the emit loop's exception);
when the handler throws during subscribe's replay, the replay halts, the
exception propagates to the subscribe caller, and the handler is not
registered for live events. -/
theorem c7_handler_not_isolated {α : Type} (beh : Nat → Option α → Bool) :
    (∀ (arg : Option α) (l : List Nat), (∀ g ∈ l, beh g arg = false) →
      emitRun beh arg l = ⟨l.map (fun g => (g, arg)), none⟩) ∧
    (∀ (arg : Option α) (l1 : List Nat) (g : Nat) (l2 : List Nat),
      (∀ x ∈ l1, beh x arg = false) → beh g arg = true →
      emitRun beh arg (l1 ++ g :: l2) = ⟨(l1 ++ [g]).map (fun x => (x, arg)), some g⟩) ∧
    (∀ (s : SessionState α) (e : CDPEvent α),
      (handleEvent beh s e).thrown
        = (emitRun beh (some e.params) ((mapGet s.listeners e.method).getD [])).thrown) ∧
    (∀ (hd : Nat) (ps1 : List α) (p : α) (ps2 : List α),
      (∀ q ∈ ps1, beh hd (some q) = false) → beh hd (some p) = true →
      replayRun beh hd (ps1 ++ p :: ps2)
        = ⟨(ps1 ++ [p]).map (fun q => (hd, some q)), some hd⟩) ∧
    (∀ (s : SessionState α) (ev : String) (hd : Nat),
      (subscribe beh s ev hd).thrown
        = (replayRun beh hd ((mapGet s.eventBuffer ev).getD [])).thrown ∧
      ((replayRun beh hd ((mapGet s.eventBuffer ev).getD [])).thrown ≠ none →
        (subscribe beh s ev hd).state.listeners = s.listeners)) := by
  refine ⟨emitRun_no_throw beh, emitRun_first_throw beh, ?_, replayRun_first_throw beh, ?_⟩
  · intro s e
    rfl
  · intro s ev hd
    constructor
    · cases hthr : (replayRun beh hd ((mapGet s.eventBuffer ev).getD [])).thrown with
      | some t => simp [subscribe, hthr]
      | none => simp [subscribe, hthr]
    · intro hne
      cases hthr : (replayRun beh hd ((mapGet s.eventBuffer ev).getD [])).thrown with
      | some t => simp [subscribe, hthr]
      | none => exact absurd hthr hne

/-- Witness for the amended C7 at concrete inputs: a throwing handler stops the
emit loop and the replay loop; without a throwing handler every listener is
reached in order. -/
theorem c7_witness :
    emitRun c7beh (some (42 : Nat)) [0, 1, 2] = ⟨[(0, some 42), (1, some 42)], some 1⟩ ∧
    emitRun exBeh (some (7 : Nat)) [3, 4] = ⟨[(3, some 7), (4, some 7)], none⟩ ∧
    replayRun c7beh 1 [5, 6] = ⟨[(1, some 5)], some 1⟩ := by
  refine ⟨?_, ?_, ?_⟩
  · exact (c7_handler_not_isolated c7beh).2.1 (some 42) [0] 1 [2] (by decide) (by decide)
  · exact (c7_handler_not_isolated exBeh).1 (some 7) [3, 4] (by decide)
  · exact (c7_handler_not_isolated c7beh).2.2.2.1 1 [] 5 [6] (by decide) (by decide)

/-- Counterexample to C8: when the critical `Runtime.enable` fails, bring-up
aborts (only `Runtime.enable` was attempted and the error propagates), but the
session does NOT move to closed — its `closed` flag is still `false`: neither
`initialize` nor `attachToPage`'s catch block (which only logs and rethrows)
ever closes the session. -/
theorem c8_counterexample :
    (initializeRun false c8fail).closedAfter = false ∧
    (initializeRun false c8fail).result.raised
      = some (MgrError.cdpError (-32000) "not available") ∧
    (initializeRun false c8fail).result.attempted = ["Runtime.enable"] := by
  decide

/-- C8 amended: bring-up enables the domains in the fixed dependency order;
a critical domain's (Runtime, Network, Page) enable failure aborts the
sequence — no later domain is attempted — and the failure propagates to the
attach caller, but the session's `closed` flag is unchanged (the session does
not move to closed); an auxiliary domain's failure is recorded as a warning
and bring-up continues with the remaining domains. -/
theorem c8_bringup_order_and_failures (cf : String → Option String) :
    (∀ (closed : Bool), (initializeRun closed cf).closedAfter = closed) ∧
    (∀ (pre : List String) (d : String) (post : List String) (msg : String),
      REQUIRED_DOMAINS = pre ++ d :: post → isCriticalDomain d = true →
      cf (d ++ ".enable") = some msg → (∀ x ∈ pre, cf (x ++ ".enable") = none) →
      (initializeRun false cf).result.attempted
          = (pre ++ [d]).map (fun x => x ++ ".enable") ∧
      (initializeRun false cf).result.warnings = [] ∧
      (initializeRun false cf).result.raised = some (MgrError.cdpError (-32000) msg)) ∧
    (∀ (d : String) (rest : List String) (msg : String),
      isCriticalDomain d = false → cf (d ++ ".enable") = some msg →
      initLoop false cf (d :: rest)
        = ⟨(d ++ ".enable") :: (initLoop false cf rest).attempted,
           d :: (initLoop false cf rest).warnings, (initLoop false cf rest).raised⟩) ∧
    ((∀ d ∈ REQUIRED_DOMAINS, cf (d ++ ".enable") = none) →
      (initLoop false cf REQUIRED_DOMAINS).attempted
        = REQUIRED_DOMAINS.map (fun d => d ++ ".enable") ∧
      (initLoop false cf REQUIRED_DOMAINS).raised = none) := by
  refine ⟨?_, ?_, ?_, ?_⟩
  · intro closed
    exact initializeRun_closedAfter closed cf
  · intro pre d post msg hreq hcrit hf hok
    have hloop : initLoop false cf REQUIRED_DOMAINS
        = ⟨(pre ++ [d]).map (fun x => x ++ ".enable"), [],
           some (MgrError.cdpError (-32000) msg)⟩ := by
      rw [hreq, initLoop_append_ok cf pre (d :: post) hok,
        initLoop_critical_fail cf d post msg hcrit hf]
      simp
    have hres := initializeRun_of_loop_raised false cf (MgrError.cdpError (-32000) msg)
      (by rw [hloop])
    rw [hres, hloop]
    exact ⟨rfl, rfl, rfl⟩
  · exact fun d rest msg => initLoop_aux_fail cf d rest msg
  · intro hok
    rw [initLoop_all_ok cf REQUIRED_DOMAINS hok]
    exact ⟨rfl, rfl⟩

/-- Witness for the amended C8: an auxiliary `DOM.enable` failure warns and
continues; a critical `Runtime.enable` failure aborts with the error and the
`closed` flag stays `false`. -/
theorem c8_witness :
    (initializeRun false c8auxFail).closedAfter = false ∧
    initLoop false c8auxFail ["DOM", "CSS"]
      = ⟨"DOM.enable" :: (initLoop false c8auxFail ["CSS"]).attempted,
         "DOM" :: (initLoop false c8auxFail ["CSS"]).warnings,
         (initLoop false c8auxFail ["CSS"]).raised⟩ ∧
    ((initializeRun false c8fail).result.attempted = ["Runtime.enable"] ∧
     (initializeRun false c8fail).result.warnings = [] ∧
     (initializeRun false c8fail).result.raised
       = some (MgrError.cdpError (-32000) "not available")) := by
  refine ⟨(c8_bringup_order_and_failures c8auxFail).1 false, ?_, ?_⟩
  · exact (c8_bringup_order_and_failures c8auxFail).2.2.1 "DOM" ["CSS"] "not available"
      (by decide) (by decide)
  · exact (c8_bringup_order_and_failures c8fail).2.1 []
      "Runtime" ["Network", "Page", "DOM", "CSS", "Console", "Performance", "Security",
        "Fetch"] "not available" (by decide) (by decide) (by decide) (by decide)

/-- Counterexample to C9: `close()` can raise to its caller.  On an open
session whose `closed`-event listener (handler 5) throws, the first `close()`
call propagates that exception out of the `finally` block — it is not
swallowed — refuting `never raises to its caller`. -/
theorem c9_counterexample :
    c9state.closed = false ∧
    (closeCall c9beh c9state (fun _ => Except.ok none) 0 none).thrown = some 5 := by
  decide

/-- C9 amended: `close()` on an already-closed session returns immediately with
no effect and no error; a first `close()` on an open session issues a
best-effort disable for every enabled domain, swallows every disable failure
and any `connection.close()` failure (the result is the same for every such
failure), marks the session closed with no pending commands left, and a
subsequent `close()` is a no-op; but the exception of a throwing
`closed`-event listener propagates to the first caller (`thrown` equals
exactly the emit loop's exception over the `closed` listeners). -/
theorem c9_close_idempotent_swallows {α : Type} (beh : Nat → Option α → Bool)
    (s : SessionState α) (dr : String → Except (CDPError α) (Option α)) (now : Nat)
    (cc : Option String) :
    (s.closed = true → closeCall beh s dr now cc = ⟨s, [], none⟩) ∧
    (s.closed = false →
      (closeCall beh s dr now cc).thrown
        = (emitRun beh none ((mapGet s.listeners "closed").getD [])).thrown ∧
      (closeCall beh s dr now cc).state.closed = true ∧
      (closeCall beh s dr now cc).state.pendingCommands = [] ∧
      (closeCall beh s dr now cc).state.domains = [] ∧
      ((s.domains.map Prod.fst).Nodup →
        (closeCall beh s dr now cc).issued
          = ((s.domains.filter (fun kv => kv.2.enabled)).map (fun kv => kv.1)).map
              (fun d => d ++ ".disable")) ∧
      (∀ (dr2 : String → Except (CDPError α) (Option α)) (cc2 : Option String),
        closeCall beh (closeCall beh s dr now cc).state dr2 now cc2
          = ⟨(closeCall beh s dr now cc).state, [], none⟩)) := by
  constructor
  · intro hcl
    exact closeCall_closed_noop beh s dr now cc hcl
  · intro hopen
    have hif : ¬ (s.closed = true) := by simp [hopen]
    have hcc : closeCall beh s dr now cc
        = ⟨(handleConnectionClosed beh
              (((s.domains.filter (fun kv => kv.2.enabled)).map (fun kv => kv.1)).foldl
                (closeDisableStep dr now) (s, [])).1).state,
           (((s.domains.filter (fun kv => kv.2.enabled)).map (fun kv => kv.1)).foldl
              (closeDisableStep dr now) (s, [])).2,
           (handleConnectionClosed beh
              (((s.domains.filter (fun kv => kv.2.enabled)).map (fun kv => kv.1)).foldl
                (closeDisableStep dr now) (s, [])).1).thrown⟩ := by
      unfold closeCall
      rw [if_neg hif]
    refine ⟨?_, ?_, ?_, ?_, ?_, ?_⟩
    · rw [hcc]
      dsimp only
      rw [handleConnectionClosed_thrown, closeFold_listeners]
    · rw [hcc]
      exact handleConnectionClosed_closed beh _
    · rw [hcc]
      exact handleConnectionClosed_pending beh _
    · rw [hcc]
      exact handleConnectionClosed_domains beh _
    · intro hnd
      rw [hcc]
      dsimp only
      rw [closeFold_issued dr now _ s [] (enabledDoms_nodup s hnd)
        (enabledDoms_enabled s hnd)]
      simp
    · intro dr2 cc2
      have hcl2 : (closeCall beh s dr now cc).state.closed = true := by
        rw [hcc]
        exact handleConnectionClosed_closed beh _
      exact closeCall_closed_noop beh _ dr2 now cc2 hcl2

/-- Witness for the amended C9: on an open session with an enabled `Network`
domain, a pending command, failing disable replies and a failing
`connection.close()`, the first `close()` still completes without raising,
issues the best-effort `Network.disable`, marks the session closed, and the
second `close()` is a no-op. -/
theorem c9_witness :
    c9okState.closed = false ∧
    (closeCall exBeh c9okState c9failReply 9 (some "close failed")).thrown = none ∧
    (closeCall exBeh c9okState c9failReply 9 (some "close failed")).state.closed = true ∧
    (closeCall exBeh c9okState c9failReply 9 (some "close failed")).issued
      = ["Network.disable"] ∧
    closeCall exBeh (closeCall exBeh c9okState c9failReply 9 (some "close failed")).state
        c9failReply 9 none
      = ⟨(closeCall exBeh c9okState c9failReply 9 (some "close failed")).state, [], none⟩ := by
  have h := (c9_close_idempotent_swallows exBeh c9okState c9failReply 9
    (some "close failed")).2 rfl
  refine ⟨rfl, ?_, h.2.1, ?_, h.2.2.2.2.2 c9failReply none⟩
  · rw [h.1]
    decide
  · rw [h.2.2.2.2.1 (by decide)]
    decide

/-- C10: when the transport rejects the send of a command on an open session,
the returned future rejects with that failure but the freshly created pending
entry is not removed: it stays in the table, is counted by `getMetrics` as a
pending command, and its timestamp drives the oldest-pending uptime — until a
response bearing its id arrives (which removes it) or the session closes
(which clears the table). -/
theorem c10_transport_failure_keeps_pending {α : Type} (s : SessionState α)
    (beh : Nat → Option α → Bool) (method : String) (now t : Nat) (msg : String)
    (res : Option α) (err : Option (CDPError α))
    (hopen : s.closed = false)
    (hfresh : mapGet s.pendingCommands (s.commandId + 1) = none) :
    (send s method now (some msg)).outcome
      = SendOutcome.rejectedTransport (s.commandId + 1) msg ∧
    mapGet (send s method now (some msg)).state.pendingCommands (s.commandId + 1)
      = some ⟨method, now⟩ ∧
    (getMetrics (send s method now (some msg)).state t).pendingCommands
      = s.pendingCommands.length + 1 ∧
    ((∀ kv ∈ s.pendingCommands, now ≤ kv.2.timestamp) → now ≤ t →
      (getMetrics (send s method now (some msg)).state t).uptime = t - now) ∧
    mapGet (handleResponse (send s method now (some msg)).state
        ⟨s.commandId + 1, res, err⟩).state.pendingCommands (s.commandId + 1) = none ∧
    (handleConnectionClosed beh (send s method now (some msg)).state).state.pendingCommands
      = [] := by
  have hst := send_state_open s method now (some msg) hopen
  have hfr := mapSet_fresh s.pendingCommands (s.commandId + 1) ⟨method, now⟩ hfresh
  refine ⟨?_, ?_, ?_, ?_, ?_, handleConnectionClosed_pending beh _⟩
  · simp [send, hopen]
  · rw [hst]
    simp [mapGet_set_self]
  · rw [hst]
    simp [getMetrics, hfr]
  · intro hts hnt
    rw [hst]
    show t - (((mapSet s.pendingCommands (s.commandId + 1)
        (⟨method, now⟩ : PendingCommand)).map (fun kv => kv.2.timestamp)).foldr min t)
      = t - now
    rw [hfr, List.map_append, List.foldr_append]
    have h1 : List.foldr min t
        ([(s.commandId + 1, (⟨method, now⟩ : PendingCommand))].map
          (fun kv => kv.2.timestamp)) = now := by
      simp [min_eq_left hnt]
    rw [h1]
    have hforall : ∀ x ∈ s.pendingCommands.map (fun kv => kv.2.timestamp), now ≤ x := by
      intro x hx
      obtain ⟨kv, hkv, hxe⟩ := List.mem_map.mp hx
      rw [← hxe]
      exact hts kv hkv
    rw [foldr_min_const _ now hforall]
  · rw [hst]
    have hget : mapGet (mapSet s.pendingCommands (s.commandId + 1)
        (⟨method, now⟩ : PendingCommand)) (s.commandId + 1) = some ⟨method, now⟩ :=
      mapGet_set_self _ _ _
    simp [handleResponse, hget, mapGet_delete_self]

/-- Witness for C10: on a session with pending id 1 (timestamp 50), a transport
failure of command 2 (timestamp 40) leaves its entry pending — metrics count 2
pending commands with uptime measured from 40 — until a response for id 2
removes it. -/
theorem c10_witness :
    (send c10state "m1" 40 (some "ECONNRESET")).outcome
      = SendOutcome.rejectedTransport 2 "ECONNRESET" ∧
    mapGet (send c10state "m1" 40 (some "ECONNRESET")).state.pendingCommands 2
      = some ⟨"m1", 40⟩ ∧
    (getMetrics (send c10state "m1" 40 (some "ECONNRESET")).state 100).pendingCommands
      = 2 ∧
    (getMetrics (send c10state "m1" 40 (some "ECONNRESET")).state 100).uptime = 60 ∧
    mapGet (handleResponse (send c10state "m1" 40 (some "ECONNRESET")).state
        ⟨2, some 5, none⟩).state.pendingCommands 2 = none := by
  have h := c10_transport_failure_keeps_pending c10state exBeh "m1" 40 100 "ECONNRESET"
    (some 5) none rfl (by decide)
  exact ⟨h.1, h.2.1, h.2.2.1, h.2.2.2.1 (by decide) (by decide), h.2.2.2.2.1⟩

end PWMCP
